import Mathlib

/-!
Shallow embedding of the PFMS/EPMS tracking dashboard pipeline
(`src/pfms_tracking_dashboard.py`): schema mapping, numeric cleaning,
the derived Pending column, the cascading sidebar filters, the KPI
computations and the groupby aggregations, together with proofs of the
behavioural properties of those stages.

Cells of a pandas DataFrame are modelled by `PFMS.Value`: a string, a
rational number (exact arithmetic; the source only ever adds, subtracts
and divides decimal amounts), or `missing` (pandas `NaN`).  A DataFrame
is a column-name list plus rows of (column, value) pairs; pandas keeps
frames rectangular, which the model states as `PFMS.Rect`.
-/

namespace PFMS

/-- A cell value: a string, an exact number, or pandas `NaN`. -/
inductive Value where
  | str (s : String)
  | num (q : ℚ)
  | missing
deriving DecidableEq, Repr

/-- One row: an ordered association of column name to cell value. -/
abbrev Row := List (String × Value)

/-- A DataFrame: its column labels and its rows. -/
structure DataFrame where
  cols : List String
  rows : List Row
deriving DecidableEq, Repr

/-- Python `str(x)` as applied by `.astype(str)`: strings unchanged and
`NaN` rendered as the string `"nan"`.  (In the pipeline this is only ever
applied to raw CSV cells, which are strings or missing.) -/
def Value.toStr : Value → String
  | .str s => s
  | .num q => toString q
  | .missing => "nan"

/-- Whether a value is the pandas `NaN` sentinel. -/
def Value.isMissing : Value → Bool
  | .missing => true
  | _ => false

/-- First cell of `r` stored under column `c`, if any. -/
def getCell : Row → String → Option Value
  | [], _ => none
  | (k, v) :: r, c => if k = c then some v else getCell r c

/-- The empty frame `pd.DataFrame()`. -/
def emptyDF : DataFrame := ⟨[], []⟩

/-- pandas `df.empty`: true when either axis has length zero. -/
def DataFrame.isEmptyDF (df : DataFrame) : Bool :=
  df.rows.isEmpty || df.cols.isEmpty

/-- All cells of column `c`, in row order (rows lacking the column are
skipped; pandas frames are rectangular so none are skipped in practice). -/
def DataFrame.colValues (df : DataFrame) (c : String) : List Value :=
  df.rows.filterMap (fun r => getCell r c)

/-- Rectangularity: every row carries exactly the frame's columns. -/
def Rect (df : DataFrame) : Prop :=
  ∀ r ∈ df.rows, r.map Prod.fst = df.cols

instance (df : DataFrame) : Decidable (Rect df) := by
  unfold Rect; infer_instance

-- ## Configuration constants of the source script

/-- Source `CLEAN_COLUMN_NAMES`: raw sheet header to canonical column name. -/
def CLEAN_COLUMN_NAMES : List (String × String) :=
  [("SNo", "SNo"),
   ("Investigator", "Investigator"),
   ("Institute Name-1", "Institute_Name"),
   ("Division-1", "Division"),
   ("Programme/Scheme", "Programme_Scheme"),
   ("Umbrella Scheme", "Umbrella_Scheme"),
   ("Sanction File No.-1", "Sanction_File_No"),
   ("Budget Head-1", "Budget_Head"),
   ("Diary No.(General/Capital/Salary)-1", "Diary_No"),
   ("DSO-1", "DSO"),
   ("Project Type", "Project_Type"),
   ("Budget Type", "Budget"),
   ("Vetting Amount (in INR)", "Vetting_Amount_INR"),
   ("Credite Amout", "Released_Amount_INR")]

/-- Source `FINANCIAL_COLS`. -/
def FINANCIAL_COLS : List String := ["Vetting_Amount_INR", "Released_Amount_INR"]

/-- Source `KPI_COUNT_COLS`. -/
def KPI_COUNT_COLS : List String := ["Sanction_File_No", "Budget_Head", "Diary_No"]

/-- The columns cast with `.astype(str)` at line 93 of the source. -/
def STR_CAST_COLS : List String := KPI_COUNT_COLS ++ ["DSO", "Project_Type", "Budget"]

/-- Source `list(CLEAN_COLUMN_NAMES.values())`. -/
def requiredCols : List String := CLEAN_COLUMN_NAMES.map Prod.snd

/-- Source `CRORE_FACTOR`. -/
def CRORE_FACTOR : ℚ := 10000000

-- ## pandas operations used by the pipeline

/-- pandas `df.rename(columns=m, errors='ignore')` on one column label. -/
def renameKey (m : List (String × String)) (k : String) : String :=
  match m.lookup k with
  | some k' => k'
  | none => k

/-- Row part of `df.rename(columns=CLEAN_COLUMN_NAMES)`. -/
def renameRow (r : Row) : Row :=
  r.map (fun kv => (renameKey CLEAN_COLUMN_NAMES kv.1, kv.2))

/-- pandas `df.rename(columns=CLEAN_COLUMN_NAMES, errors='ignore')`. -/
def DataFrame.renameCols (df : DataFrame) : DataFrame :=
  ⟨df.cols.map (renameKey CLEAN_COLUMN_NAMES), df.rows.map renameRow⟩

/-- Row part of `df.filter(items=sel)`: keep the listed columns, in the
listed order, when the row has them. -/
def rowSelect (sel : List String) (r : Row) : Row :=
  sel.filterMap (fun c => (getCell r c).map (fun v => (c, v)))

/-- pandas `df.filter(items=items)`: keep the intersection of `items` with the
frame's columns, in `items` order.  Absent items are silently dropped. -/
def DataFrame.filterItems (df : DataFrame) (items : List String) : DataFrame :=
  let sel := items.filter (fun c => df.cols.contains c)
  ⟨sel, df.rows.map (rowSelect sel)⟩

/-- Row part of `df[c] = df[c].map f`: rewrite the cells of column `c`. -/
def mapColRow (c : String) (f : Value → Value) : Row → Row
  | [] => []
  | (k, v) :: r =>
    if k = c then (k, f v) :: mapColRow c f r
    else (k, v) :: mapColRow c f r

/-- pandas `df[c] = df[c].map f` at frame level. -/
def DataFrame.mapCol (df : DataFrame) (c : String) (f : Value → Value) : DataFrame :=
  ⟨df.cols, df.rows.map (mapColRow c f)⟩

/-- pandas `df[c] = <expression of the row>`: append a computed column. -/
def DataFrame.addCol (df : DataFrame) (c : String) (f : Row → Value) : DataFrame :=
  ⟨df.cols ++ [c], df.rows.map (fun r => r ++ [(c, f r)])⟩

-- ## Cleaner (source lines 79-83)

/-- Source `str.replace(r'[^\d.]', '', regex=True)`: keep only digits and the
decimal point. -/
def stripNonNumeric (s : String) : List Char :=
  s.toList.filter (fun c => c.isDigit || c = '.')

/-- Numeric value of a digit string (empty list reads as 0). -/
def digitsVal (ds : List Char) : ℚ :=
  ((ds.foldl (fun n c => 10 * n + (c.toNat - 48)) 0 : ℕ) : ℚ)

/-- pandas `pd.to_numeric(·, errors='coerce')` on a digits-and-dots string:
a decimal literal with at most one dot and at least one digit parses;
anything else coerces to `NaN` (here: `none`). -/
def parseDecimal (cs : List Char) : Option ℚ :=
  if cs.all (fun c => c.isDigit || c = '.') then
    if cs.isEmpty then none
    else
      let intPart := cs.takeWhile (fun c => c ≠ '.')
      match cs.dropWhile (fun c => c ≠ '.') with
      | [] => some (digitsVal intPart)
      | _ :: frac =>
        if frac.contains '.' then none
        else if intPart.isEmpty && frac.isEmpty then none
        else some (digitsVal intPart + digitsVal frac / (10 : ℚ) ^ frac.length)
  else none

/-- Lines 82-83 on one cell: `astype(str)`, strip non-numeric characters,
`to_numeric(errors='coerce')`, `fillna(0)`. -/
def cleanCell (v : Value) : Value :=
  .num ((parseDecimal (stripNonNumeric v.toStr)).getD 0)

/-- Modelled from the spec: the Cleaner as §4.3 words it — "strip every
character that is not a digit or decimal point, then parse as a decimal
number; on parse failure, or on empty string after stripping, the field's
value becomes the number zero". -/
def cleanSpec (s : String) : ℚ :=
  let t := s.toList.filter (fun c => c.isDigit || c = '.')
  if t.isEmpty then 0
  else
    match parseDecimal t with
    | some q => q
    | none => 0

-- ## Derivation (source lines 86-87)

/-- pandas column subtraction on two cells (in the pipeline both cells
are numeric by the time it is used). -/
def Value.sub : Value → Value → Value
  | .num a, .num b => .num (a - b)
  | _, _ => .missing

/-- Source `df['Pending_Amount_INR'] = df['Vetting_Amount_INR'] - df['Released_Amount_INR']`
on one row. -/
def pendingOf (r : Row) : Value :=
  Value.sub ((getCell r "Vetting_Amount_INR").getD .missing)
    ((getCell r "Released_Amount_INR").getD .missing)

-- ## The load_and_clean pipeline (source lines 72-98)

/-- Lines 72-76: rename to canonical names, then keep only the declared
canonical columns. -/
def schemaMap (raw : DataFrame) : DataFrame :=
  (raw.renameCols).filterItems requiredCols

/-- One guarded per-column pass, as in both `for col in ...` loops:
the column is rewritten only when present (`if col in df.columns`). -/
def castFold (cs : List String) (f : Value → Value) (d : DataFrame) : DataFrame :=
  cs.foldl (fun d c => if d.cols.contains c then d.mapCol c f else d) d

/-- Lines 72-95 of `load_and_clean_data` (the part after the CSV parse):
schema mapping, numeric cleaning, the Pending derivation — returning the
empty frame when the financial columns are absent — and the string cast
of the count/filter columns. -/
def load_and_clean (raw : DataFrame) : DataFrame :=
  let df := schemaMap raw
  let df := castFold FINANCIAL_COLS cleanCell df
  if df.cols.contains "Vetting_Amount_INR" && df.cols.contains "Released_Amount_INR" then
    let df := df.addCol "Pending_Amount_INR" pendingOf
    castFold STR_CAST_COLS (fun v => .str v.toStr) df
  else emptyDF

/-- The whole cached loader including the `try/except`: a fetch failure
(lines 100-106) yields the empty frame. -/
def load_from_fetch : Except String DataFrame → DataFrame
  | .error _ => emptyDF
  | .ok raw => load_and_clean raw

/-- Lines 112-113: the page renders only when the frame is non-empty
(`if df.empty: st.stop()`). -/
def proceeds (df : DataFrame) : Bool := !df.isEmptyDF

-- ## Filter engine (source lines 126-149)

/-- Elementwise `df[c] == v` on one cell: exact string equality; the
match never holds for `NaN` or numeric cells. -/
def valueEqStr : Value → String → Bool
  | .str s, t => s = t
  | _, _ => false

/-- pandas `df[df[c] == v]`. -/
def DataFrame.filterEq (df : DataFrame) (c : String) (v : String) : DataFrame :=
  ⟨df.cols, df.rows.filter (fun r =>
    match getCell r c with
    | some w => valueEqStr w v
    | none => false)⟩

/-- One sidebar filter step: the field, its "All ..." sentinel, and the
selected value. -/
structure FilterStep where
  field : String
  sentinel : String
  selected : String
deriving DecidableEq, Repr

/-- Source block `if selected != sentinel: df_filtered = df_filtered[...]`. -/
def applyStep (df : DataFrame) (s : FilterStep) : DataFrame :=
  if s.selected ≠ s.sentinel then df.filterEq s.field s.selected else df

/-- The ordered cascade: fold the steps left to right. -/
def applyFilters (df : DataFrame) (steps : List FilterStep) : DataFrame :=
  steps.foldl applyStep df

/-- Python string comparison (code-point lexicographic) as used by
`sorted`. -/
def charListLe : List Char → List Char → Bool
  | [], _ => true
  | _ :: _, [] => false
  | a :: as, b :: bs =>
    if a = b then charListLe as bs else decide (a.toNat < b.toNat)

/-- Comparison `a <= b` on strings, by code points. -/
def strLe (a b : String) : Bool := charListLe a.toList b.toList

/-- Insertion step of `sorted`. -/
def insertStr (a : String) : List String → List String
  | [] => [a]
  | b :: bs => if strLe a b then a :: b :: bs else b :: insertStr a bs

/-- Python `sorted` on a list of strings. -/
def sortStrings : List String → List String
  | [] => []
  | a :: as => insertStr a (sortStrings as)

/-- Source `df[c].astype(str).unique().tolist()`: the distinct cell strings. -/
def uniqueStrs (df : DataFrame) (c : String) : List String :=
  ((df.colValues c).map Value.toStr).dedup

/-- A selectbox option list: the sentinel prepended to the sorted
distinct values of the column. -/
def optionsFor (df : DataFrame) (c : String) (sentinel : String) : List String :=
  sentinel :: sortStrings (uniqueStrs df c)

/-- The three sidebar selections. -/
structure Selections where
  dso : String
  projectType : String
  budget : String
deriving DecidableEq, Repr

/-- What the sidebar computes: the three option lists and the final
filtered frame. -/
structure SidebarState where
  dsoOptions : List String
  projectTypeOptions : List String
  budgetOptions : List String
  df_filtered : DataFrame
deriving DecidableEq, Repr

/-- Source lines 126-149, verbatim structure: options for each selectbox
are taken from `df_filtered` as narrowed by the previous steps, then the
step's own equality filter is applied unless its sentinel is selected. -/
def dashboard (df : DataFrame) (sel : Selections) : SidebarState :=
  let df_filtered := df
  let dsoOptions := "All DSO" :: sortStrings (uniqueStrs df_filtered "DSO")
  let df_filtered :=
    if sel.dso ≠ "All DSO" then df_filtered.filterEq "DSO" sel.dso else df_filtered
  let projectTypeOptions :=
    "All Project Types" :: sortStrings (uniqueStrs df_filtered "Project_Type")
  let df_filtered :=
    if sel.projectType ≠ "All Project Types" then
      df_filtered.filterEq "Project_Type" sel.projectType
    else df_filtered
  let budgetOptions := "All Budgets" :: sortStrings (uniqueStrs df_filtered "Budget")
  let df_filtered :=
    if sel.budget ≠ "All Budgets" then df_filtered.filterEq "Budget" sel.budget
    else df_filtered
  ⟨dsoOptions, projectTypeOptions, budgetOptions, df_filtered⟩

-- ## KPIs (source lines 152-168)

/-- Numeric reading of a cell for summation. -/
def qOf : Value → ℚ
  | .num q => q
  | _ => 0

/-- pandas `df[c].sum()`. -/
def DataFrame.sumCol (df : DataFrame) (c : String) : ℚ :=
  ((df.colValues c).map qOf).sum

/-- Source `total_vetting`. -/
def total_vetting (df : DataFrame) : ℚ := df.sumCol "Vetting_Amount_INR"

/-- Source `total_released`. -/
def total_released (df : DataFrame) : ℚ := df.sumCol "Released_Amount_INR"

/-- Source `total_pending`. -/
def total_pending (df : DataFrame) : ℚ := df.sumCol "Pending_Amount_INR"

/-- pandas `df[c].nunique()`: distinct non-`NaN` cell values. -/
def nuniqueCol (df : DataFrame) (c : String) : ℕ :=
  (((df.colValues c).filter (fun v => !v.isMissing)).dedup).length

/-- Source `count_sanction_file`. -/
def count_sanction_file (df : DataFrame) : ℕ := nuniqueCol df "Sanction_File_No"

/-- Source `release_rate` (line 167): guarded against a zero total. -/
def release_rate (df : DataFrame) : ℚ :=
  if total_vetting df ≠ 0 then total_released df / total_vetting df * 100 else 0

/-- Source `pending_rate` (line 168): guarded against a zero total. -/
def pending_rate (df : DataFrame) : ℚ :=
  if total_vetting df ≠ 0 then total_pending df / total_vetting df * 100 else 0

-- ## Aggregator (source lines 236-239 and 276-277)

/-- Insertion step of the group-key sort. -/
def insertVal (a : Value) : List Value → List Value
  | [] => [a]
  | b :: bs => if strLe a.toStr b.toStr then a :: b :: bs else b :: insertVal a bs

/-- Sort group keys ascending (pandas `groupby` sorts keys). -/
def sortVals : List Value → List Value
  | [] => []
  | a :: as => insertVal a (sortVals as)

/-- pandas `df.groupby(c)` keys: the distinct values of the column, `NaN`
excluded (pandas default `dropna=True`), sorted ascending. -/
def groupKeys (df : DataFrame) (c : String) : List Value :=
  sortVals (((df.colValues c).filter (fun v => !v.isMissing)).dedup)

/-- The rows of one group. -/
def DataFrame.whereKey (df : DataFrame) (c : String) (k : Value) : DataFrame :=
  ⟨df.cols, df.rows.filter (fun r => getCell r c == some k)⟩

/-- Source `div_summary` (lines 236-239): per Division, the Released and
Pending sums. -/
def div_summary (df : DataFrame) : List (Value × ℚ × ℚ) :=
  (groupKeys df "Division").map (fun k =>
    (k, (df.whereKey "Division" k).sumCol "Released_Amount_INR",
        (df.whereKey "Division" k).sumCol "Pending_Amount_INR"))

/-- Source `scheme_summary` (lines 276-277): per Programme/Scheme, the Vetting
sum. -/
def scheme_summary (df : DataFrame) : List (Value × ℚ) :=
  (groupKeys df "Programme_Scheme").map (fun k =>
    (k, (df.whereKey "Programme_Scheme" k).sumCol "Vetting_Amount_INR"))

-- ## Row-level lemmas

theorem getCell_isSome {r : Row} {c : String} :
    (getCell r c).isSome = true ↔ c ∈ r.map Prod.fst := by
  induction r with
  | nil => simp [getCell]
  | cons kv t ih =>
    obtain ⟨k, v⟩ := kv
    by_cases hk : k = c
    · subst hk; simp [getCell]
    · simp [getCell, hk, ih, Ne.symm hk]

theorem getCell_eq_none {r : Row} {c : String} :
    getCell r c = none ↔ c ∉ r.map Prod.fst := by
  rw [← getCell_isSome]
  cases getCell r c <;> simp

theorem getCell_append_ne {r : Row} {k c : String} {v : Value} (h : c ≠ k) :
    getCell (r ++ [(k, v)]) c = getCell r c := by
  induction r with
  | nil => simp [getCell, Ne.symm h]
  | cons kv t ih =>
    by_cases hk : kv.1 = c
    · simp [getCell, hk]
    · simp [getCell, hk, ih]

theorem getCell_append_self {r : Row} {k : String} {v : Value}
    (h : k ∉ r.map Prod.fst) :
    getCell (r ++ [(k, v)]) k = some v := by
  induction r with
  | nil => simp [getCell]
  | cons kv t ih =>
    simp only [List.map_cons, List.mem_cons] at h
    push_neg at h
    simp [getCell, Ne.symm h.1, ih h.2]

theorem getCell_mapColRow_self (c : String) (f : Value → Value) (r : Row) :
    getCell (mapColRow c f r) c = (getCell r c).map f := by
  induction r with
  | nil => simp [getCell, mapColRow]
  | cons kv t ih =>
    obtain ⟨k, v⟩ := kv
    by_cases hk : k = c
    · subst hk; simp [getCell, mapColRow]
    · simp [getCell, mapColRow, hk, ih]

theorem getCell_mapColRow_ne {c c' : String} (f : Value → Value) (r : Row)
    (h : c' ≠ c) :
    getCell (mapColRow c f r) c' = getCell r c' := by
  induction r with
  | nil => simp [getCell, mapColRow]
  | cons kv t ih =>
    obtain ⟨k, v⟩ := kv
    by_cases hk : k = c
    · subst hk
      simp [getCell, mapColRow, Ne.symm h, ih]
    · by_cases hk' : k = c'
      · subst hk'
        simp [getCell, mapColRow, hk]
      · simp [getCell, mapColRow, hk, hk', ih]

theorem keys_mapColRow (c : String) (f : Value → Value) (r : Row) :
    (mapColRow c f r).map Prod.fst = r.map Prod.fst := by
  induction r with
  | nil => rfl
  | cons kv t ih =>
    obtain ⟨k, v⟩ := kv
    by_cases hk : k = c
    · subst hk; simpa [mapColRow] using ih
    · simpa [mapColRow, hk] using ih

theorem getCell_rowSelect (sel : List String) (r : Row) (c : String) :
    getCell (rowSelect sel r) c = if c ∈ sel then getCell r c else none := by
  induction sel with
  | nil => simp [rowSelect, getCell]
  | cons s t ih =>
    simp only [rowSelect] at ih ⊢
    by_cases hs : s = c
    · subst hs
      cases hg : getCell r s with
      | none => simpa [hg] using ih
      | some v => simp [hg, getCell]
    · cases hg : getCell r s with
      | none => simpa [hg, Ne.symm hs] using ih
      | some v => simp [hg, getCell, hs, Ne.symm hs, ih]

theorem keys_rowSelect (sel : List String) (r : Row) :
    (rowSelect sel r).map Prod.fst
      = sel.filter (fun c => (getCell r c).isSome) := by
  induction sel with
  | nil => rfl
  | cons s t ih =>
    simp only [rowSelect] at ih ⊢
    cases hg : getCell r s with
    | none => simp [hg, List.filter_cons, ih]
    | some v => simp [hg, List.filter_cons, ih]

theorem keys_renameRow (r : Row) :
    (renameRow r).map Prod.fst
      = (r.map Prod.fst).map (renameKey CLEAN_COLUMN_NAMES) := by
  simp [renameRow, List.map_map]

theorem getCell_renameRow {r : Row} {h c : String}
    (hrn : renameKey CLEAN_COLUMN_NAMES h = c)
    (hmem : h ∈ r.map Prod.fst)
    (hinj : ∀ k ∈ r.map Prod.fst, renameKey CLEAN_COLUMN_NAMES k = c → k = h) :
    getCell (renameRow r) c = getCell r h := by
  induction r with
  | nil => simp at hmem
  | cons kv t ih =>
    obtain ⟨k, v⟩ := kv
    by_cases hk : renameKey CLEAN_COLUMN_NAMES k = c
    · have hkh : k = h := hinj k (by simp) hk
      subst hkh
      simp [renameRow, getCell, hk]
    · have hkh : k ≠ h := fun e => hk (e ▸ hrn)
      have hmem' : h ∈ t.map Prod.fst := by
        simp only [List.map_cons, List.mem_cons] at hmem
        rcases hmem with h1 | h1
        · exact absurd h1.symm hkh
        · exact h1
      have step := ih hmem' (fun k' hkt hrk => hinj k' (by simp [hkt]) hrk)
      simpa [renameRow, getCell, hk, hkh] using step

-- ## Sort membership lemmas

theorem mem_insertStr {x a : String} {l : List String} :
    x ∈ insertStr a l ↔ x = a ∨ x ∈ l := by
  induction l with
  | nil => simp [insertStr]
  | cons b t ih =>
    by_cases hle : strLe a b = true
    · simp [insertStr, hle]
    · simp [insertStr, hle, ih]
      tauto

theorem mem_sortStrings {x : String} {l : List String} :
    x ∈ sortStrings l ↔ x ∈ l := by
  induction l with
  | nil => simp [sortStrings]
  | cons a t ih => simp [sortStrings, mem_insertStr, ih]

theorem mem_insertVal {x a : Value} {l : List Value} :
    x ∈ insertVal a l ↔ x = a ∨ x ∈ l := by
  induction l with
  | nil => simp [insertVal]
  | cons b t ih =>
    by_cases hle : strLe a.toStr b.toStr = true
    · simp [insertVal, hle]
    · simp [insertVal, hle, ih]
      tauto

theorem mem_sortVals {x : Value} {l : List Value} :
    x ∈ sortVals l ↔ x ∈ l := by
  induction l with
  | nil => simp [sortVals]
  | cons a t ih => simp [sortVals, mem_insertVal, ih]

-- ## Frame-level lemmas

/-- Row-level unfolding of `castFold`: the same guarded per-column pass
on a single row, the guards read off the (constant) column list. -/
def castRowFold (cs : List String) (f : Value → Value) (cols : List String) (r : Row) : Row :=
  cs.foldl (fun r c => if cols.contains c then mapColRow c f r else r) r

theorem cols_mapCol (df : DataFrame) (c : String) (f : Value → Value) :
    (df.mapCol c f).cols = df.cols := rfl

theorem cols_castFold (f : Value → Value) :
    ∀ (cs : List String) (d : DataFrame), (castFold cs f d).cols = d.cols
  | [], _ => rfl
  | c :: t, d => by
    unfold castFold
    simp only [List.foldl_cons]
    have h := cols_castFold f t (if d.cols.contains c then d.mapCol c f else d)
    unfold castFold at h
    rw [h]
    split <;> rfl

theorem rows_castFold (f : Value → Value) :
    ∀ (cs : List String) (d : DataFrame),
      (castFold cs f d).rows = d.rows.map (castRowFold cs f d.cols)
  | [], d => by
    show d.rows = d.rows.map (fun r => r)
    simp
  | c :: t, d => by
    unfold castFold castRowFold
    simp only [List.foldl_cons]
    by_cases hc : d.cols.contains c = true
    · have h := rows_castFold f t (d.mapCol c f)
      unfold castFold at h
      rw [if_pos hc, h]
      simp only [hc, if_true, DataFrame.mapCol, List.map_map]
      rfl
    · have h := rows_castFold f t d
      unfold castFold at h
      rw [if_neg hc, h]
      simp only [hc, if_false]
      rfl

theorem getCell_castRowFold_ne (f : Value → Value) (cols : List String) :
    ∀ (cs : List String) (r : Row) (k : String), k ∉ cs →
      getCell (castRowFold cs f cols r) k = getCell r k
  | [], _, _, _ => rfl
  | c :: t, r, k, h => by
    have hk : k ≠ c := fun e => h (e ▸ List.mem_cons_self c t)
    have hmem : k ∉ t := fun hm => h (List.mem_cons_of_mem c hm)
    unfold castRowFold
    simp only [List.foldl_cons]
    have step := getCell_castRowFold_ne f cols t
      (if cols.contains c then mapColRow c f r else r) k hmem
    unfold castRowFold at step
    rw [step]
    split
    · exact getCell_mapColRow_ne f r hk
    · rfl

theorem getCell_castRowFold_ne' {f : Value → Value} {cols cs : List String}
    {r : Row} {k : String} (h : k ∉ cs) :
    getCell (castRowFold cs f cols r) k = getCell r k :=
  getCell_castRowFold_ne f cols cs r k h

theorem keys_castRowFold (f : Value → Value) (cols : List String) :
    ∀ (cs : List String) (r : Row),
      (castRowFold cs f cols r).map Prod.fst = r.map Prod.fst
  | [], _ => rfl
  | c :: t, r => by
    unfold castRowFold
    simp only [List.foldl_cons]
    have step := keys_castRowFold f cols t (if cols.contains c then mapColRow c f r else r)
    unfold castRowFold at step
    rw [step]
    split
    · exact keys_mapColRow c f r
    · rfl

theorem colValues_mapCol_self (df : DataFrame) (c : String) (f : Value → Value) :
    (df.mapCol c f).colValues c = (df.colValues c).map f := by
  unfold DataFrame.colValues DataFrame.mapCol
  rw [List.filterMap_map, List.map_filterMap]
  exact List.filterMap_congr (fun r _ => getCell_mapColRow_self c f r)

theorem colValues_mapCol_ne (df : DataFrame) {k c : String} (f : Value → Value)
    (h : k ≠ c) :
    (df.mapCol c f).colValues k = df.colValues k := by
  unfold DataFrame.colValues DataFrame.mapCol
  rw [List.filterMap_map]
  exact List.filterMap_congr (fun r _ => getCell_mapColRow_ne f r h)

theorem colValues_addCol_ne (df : DataFrame) {k c : String} (g : Row → Value)
    (h : k ≠ c) :
    (df.addCol c g).colValues k = df.colValues k := by
  unfold DataFrame.colValues DataFrame.addCol
  rw [List.filterMap_map]
  exact List.filterMap_congr (fun r _ => getCell_append_ne h)

theorem colValues_castFold_ne (f : Value → Value) :
    ∀ (cs : List String) (d : DataFrame) (k : String), k ∉ cs →
      (castFold cs f d).colValues k = d.colValues k
  | [], _, _, _ => rfl
  | c :: t, d, k, h => by
    have hk : k ≠ c := fun e => h (e ▸ List.mem_cons_self c t)
    have hmem : k ∉ t := fun hm => h (List.mem_cons_of_mem c hm)
    unfold castFold
    simp only [List.foldl_cons]
    have step := colValues_castFold_ne f t (if d.cols.contains c then d.mapCol c f else d) k hmem
    unfold castFold at step
    rw [step]
    split
    · exact colValues_mapCol_ne d f hk
    · rfl

theorem colValues_castFold_head (f : Value → Value) (cs : List String)
    (d : DataFrame) (c : String) (hc : d.cols.contains c = true) (h : c ∉ cs) :
    (castFold (c :: cs) f d).colValues c = (d.colValues c).map f := by
  unfold castFold
  simp only [List.foldl_cons, if_pos hc]
  have step := colValues_castFold_ne f cs (d.mapCol c f) c h
  unfold castFold at step
  rw [step]
  exact colValues_mapCol_self d c f

-- ## Filter-engine lemmas

theorem filterEq_rows_sublist (df : DataFrame) (c v : String) :
    (df.filterEq c v).rows.Sublist df.rows :=
  List.filter_sublist _

theorem applyStep_rows_sublist (df : DataFrame) (s : FilterStep) :
    (applyStep df s).rows.Sublist df.rows := by
  unfold applyStep
  split
  · exact filterEq_rows_sublist df s.field s.selected
  · exact List.Sublist.refl _

theorem applyFilters_rows_sublist :
    ∀ (steps : List FilterStep) (df : DataFrame),
      (applyFilters df steps).rows.Sublist df.rows
  | [], _ => List.Sublist.refl _
  | s :: t, df => by
    unfold applyFilters
    simp only [List.foldl_cons]
    have h := applyFilters_rows_sublist t (applyStep df s)
    unfold applyFilters at h
    exact h.trans (applyStep_rows_sublist df s)

theorem uniqueStrs_subset {d1 d2 : DataFrame} (h : d1.rows.Sublist d2.rows)
    (c : String) : ∀ x ∈ uniqueStrs d1 c, x ∈ uniqueStrs d2 c := by
  intro x hx
  simp only [uniqueStrs, DataFrame.colValues, List.mem_dedup, List.mem_map] at hx ⊢
  obtain ⟨v, hv, rfl⟩ := hx
  exact ⟨v, (h.filterMap _).subset hv, rfl⟩

-- ## Schema-mapper lemmas

theorem cols_schemaMap (raw : DataFrame) :
    (schemaMap raw).cols
      = requiredCols.filter
          (fun c => (raw.cols.map (renameKey CLEAN_COLUMN_NAMES)).contains c) := rfl

theorem rows_schemaMap (raw : DataFrame) :
    (schemaMap raw).rows
      = raw.rows.map (fun r => rowSelect (schemaMap raw).cols (renameRow r)) := by
  show (raw.rows.map renameRow).map (rowSelect (schemaMap raw).cols)
      = raw.rows.map (fun r => rowSelect (schemaMap raw).cols (renameRow r))
  rw [List.map_map]
  rfl

theorem rect_schemaMap {raw : DataFrame} (hr : Rect raw) : Rect (schemaMap raw) := by
  intro r hrow
  rw [rows_schemaMap, List.mem_map] at hrow
  obtain ⟨r₀, hr₀, rfl⟩ := hrow
  rw [keys_rowSelect]
  apply List.filter_eq_self.mpr
  intro c hc
  rw [getCell_isSome, keys_renameRow, hr r₀ hr₀]
  rw [cols_schemaMap, List.mem_filter] at hc
  simpa using hc.2

-- ## Claim theorems: filter engine

/-- C1: the candidate-value list offered at step i is computed from the
dataset already reduced by steps 0..i-1 (never from the unfiltered
dataset): the Project-Type options equal the options of the DSO-reduced
frame, the Budget options equal the options of the frame reduced by both
earlier steps, and a restrictive value at an earlier step shrinks (is a
sub-collection of) the choices offered at every later step relative to
selecting that step's sentinel. -/
theorem cascading_candidates_from_reduced (df : DataFrame) (sel : Selections) :
    ((dashboard df sel).projectTypeOptions
      = optionsFor (applyFilters df [⟨"DSO", "All DSO", sel.dso⟩])
          "Project_Type" "All Project Types")
    ∧ ((dashboard df sel).budgetOptions
      = optionsFor (applyFilters df [⟨"DSO", "All DSO", sel.dso⟩,
          ⟨"Project_Type", "All Project Types", sel.projectType⟩])
          "Budget" "All Budgets")
    ∧ (∀ x ∈ (dashboard df sel).projectTypeOptions,
        x ∈ (dashboard df ⟨"All DSO", sel.projectType, sel.budget⟩).projectTypeOptions)
    ∧ (∀ x ∈ (dashboard df sel).budgetOptions,
        x ∈ (dashboard df ⟨"All DSO", "All Project Types", sel.budget⟩).budgetOptions) := by
  refine ⟨rfl, rfl, ?_, ?_⟩
  · intro x hx
    have hx' : x ∈ "All Project Types" ::
        sortStrings (uniqueStrs (applyStep df ⟨"DSO", "All DSO", sel.dso⟩)
          "Project_Type") := hx
    show x ∈ "All Project Types" :: sortStrings (uniqueStrs df "Project_Type")
    rcases List.mem_cons.mp hx' with h1 | h1
    · exact List.mem_cons.mpr (Or.inl h1)
    · refine List.mem_cons.mpr (Or.inr ?_)
      rw [mem_sortStrings] at h1 ⊢
      exact uniqueStrs_subset (applyStep_rows_sublist df _) _ x h1
  · intro x hx
    have hx' : x ∈ "All Budgets" ::
        sortStrings (uniqueStrs
          (applyStep (applyStep df ⟨"DSO", "All DSO", sel.dso⟩)
            ⟨"Project_Type", "All Project Types", sel.projectType⟩) "Budget") := hx
    show x ∈ "All Budgets" :: sortStrings (uniqueStrs df "Budget")
    rcases List.mem_cons.mp hx' with h1 | h1
    · exact List.mem_cons.mpr (Or.inl h1)
    · refine List.mem_cons.mpr (Or.inr ?_)
      rw [mem_sortStrings] at h1 ⊢
      exact uniqueStrs_subset
        ((applyStep_rows_sublist _ _).trans (applyStep_rows_sublist df _)) _ x h1

/-- A two-record frame over the three filter fields. -/
def dfCascade : DataFrame :=
  ⟨["DSO", "Project_Type", "Budget"],
   [[("DSO", Value.str "D1"), ("Project_Type", Value.str "P1"),
     ("Budget", Value.str "B1")],
    [("DSO", Value.str "D2"), ("Project_Type", Value.str "P2"),
     ("Budget", Value.str "B2")]]⟩

/-- Witness for C1 at a concrete frame: restricting the DSO step to "D1"
shrinks the Project-Type options from both values down to one. -/
theorem cascading_candidates_witness :
    (dashboard dfCascade ⟨"D1", "All Project Types", "All Budgets"⟩).projectTypeOptions
      = optionsFor (applyFilters dfCascade [⟨"DSO", "All DSO", "D1"⟩])
          "Project_Type" "All Project Types"
    ∧ (dashboard dfCascade
        ⟨"D1", "All Project Types", "All Budgets"⟩).projectTypeOptions
      = ["All Project Types", "P1"]
    ∧ (dashboard dfCascade
        ⟨"All DSO", "All Project Types", "All Budgets"⟩).projectTypeOptions
      = ["All Project Types", "P1", "P2"] := by
  refine ⟨(cascading_candidates_from_reduced dfCascade
    ⟨"D1", "All Project Types", "All Budgets"⟩).1, by decide, by decide⟩

/-- C2: for every dataset and filter step sequence, the filtered rows are
a sublist (hence a subset by record identity) of the dataset's rows, and
the row count never increases when further steps are appended. -/
theorem applyFilters_subset_monotone (df : DataFrame) (steps : List FilterStep) :
    (applyFilters df steps).rows.Sublist df.rows
    ∧ ∀ more : List FilterStep,
        (applyFilters df (steps ++ more)).rows.length
          ≤ (applyFilters df steps).rows.length := by
  refine ⟨applyFilters_rows_sublist steps df, fun more => ?_⟩
  have h : applyFilters df (steps ++ more)
      = applyFilters (applyFilters df steps) more := by
    unfold applyFilters
    exact List.foldl_append _ _ _ _
  rw [h]
  exact (applyFilters_rows_sublist more _).length_le

/-- C3: selecting a step's sentinel passes the dataset through unchanged
(so the next step's candidate list equals the one computed before any
narrower selection at that step), while a non-sentinel selection retains
exactly the records whose field equals the selected value under exact,
case-sensitive string equality. -/
theorem all_sentinel_noop (df : DataFrame) (f snt sel f' snt' : String)
    (h : sel ≠ snt) :
    applyStep df ⟨f, snt, snt⟩ = df
    ∧ optionsFor (applyStep df ⟨f, snt, snt⟩) f' snt' = optionsFor df f' snt'
    ∧ (applyStep df ⟨f, snt, sel⟩).rows
      = df.rows.filter (fun r =>
          match getCell r f with
          | some w => valueEqStr w sel
          | none => false) := by
  have h1 : applyStep df ⟨f, snt, snt⟩ = df := by
    simp [applyStep]
  refine ⟨h1, by rw [h1], ?_⟩
  simp [applyStep, h, DataFrame.filterEq]

-- ## Claim theorems: cleaner

/-- C4: the Cleaner strips every character that is not a digit or decimal
point and parses the remainder as a decimal number, yielding zero on
parse failure or on an empty remainder — exactly the spec-worded
`cleanSpec` — and in particular "₹1,234.50" cleans to 1234.50 and "N/A"
cleans to 0. -/
theorem cleaner_strip_parse_zero (v : Value) :
    cleanCell v = .num (cleanSpec v.toStr)
    ∧ cleanCell (.str "₹1,234.50") = .num (2469 / 2)
    ∧ cleanCell (.str "N/A") = .num 0 := by
  refine ⟨?_, ?_, ?_⟩
  case refine_2 =>
    have hstrip : stripNonNumeric (Value.toStr (.str "₹1,234.50"))
        = ['1', '2', '3', '4', '.', '5', '0'] := by decide
    have hint : digitsVal ['1', '2', '3', '4'] = ((1234 : ℕ) : ℚ) := by
      have h : List.foldl (fun n c => 10 * n + (c.toNat - 48)) 0 ['1', '2', '3', '4']
          = 1234 := by decide
      unfold digitsVal
      rw [h]
    have hfrac : digitsVal ['5', '0'] = ((50 : ℕ) : ℚ) := by
      have h : List.foldl (fun n c => 10 * n + (c.toNat - 48)) 0 ['5', '0']
          = 50 := by decide
      unfold digitsVal
      rw [h]
    have htake : ['1', '2', '3', '4', '.', '5', '0'].takeWhile (fun c => c ≠ '.')
        = ['1', '2', '3', '4'] := by decide
    have hdrop : ['1', '2', '3', '4', '.', '5', '0'].dropWhile (fun c => c ≠ '.')
        = ['.', '5', '0'] := by decide
    unfold cleanCell
    rw [hstrip]
    unfold parseDecimal
    rw [htake, hdrop]
    norm_num [hint, hfrac]
    rw [if_pos (by decide), if_neg (by decide)]
    rfl
  case refine_3 =>
    have hstrip : stripNonNumeric (Value.toStr (.str "N/A")) = [] := by decide
    unfold cleanCell
    rw [hstrip]
    rfl
  unfold cleanCell cleanSpec stripNonNumeric
  by_cases ht : ((Value.toStr v).toList.filter (fun c => c.isDigit || c = '.')) = []
  · rw [ht]
    simp [parseDecimal]
  · have ht' : ((Value.toStr v).toList.filter
        (fun c => c.isDigit || c = '.')).isEmpty = false := by
      simpa [List.isEmpty_iff] using ht
    simp only [ht', Bool.false_eq_true, if_false]
    cases hp : parseDecimal ((Value.toStr v).toList.filter
        (fun c => c.isDigit || c = '.')) <;> simp [hp]

-- ## Claim theorems: error handling and rates

/-- C9: a fetch failure, or the Vetting/Released columns being absent
after renaming, yields the empty frame for the whole render cycle and
the page halts — no partially processed dataset is returned. -/
theorem fatal_error_all_or_nothing (e : String) (raw : DataFrame)
    (h : ((schemaMap raw).cols.contains "Vetting_Amount_INR"
          && (schemaMap raw).cols.contains "Released_Amount_INR") = false) :
    load_from_fetch (.error e) = emptyDF
    ∧ proceeds (load_from_fetch (.error e)) = false
    ∧ load_and_clean raw = emptyDF
    ∧ proceeds (load_and_clean raw) = false := by
  have h3 : load_and_clean raw = emptyDF := by
    unfold load_and_clean
    simp only [cols_castFold, h, Bool.false_eq_true, if_false]
  exact ⟨rfl, rfl, h3, by rw [h3]; rfl⟩

/-- C10: when the filtered total Vetting amount is zero, both the release
rate and the pending rate are defined and equal 0 (guarded division). -/
theorem rates_zero_guard (df : DataFrame) (h : total_vetting df = 0) :
    release_rate df = 0 ∧ pending_rate df = 0 := by
  unfold release_rate pending_rate
  simp [h]

-- ## Concrete example frames

/-- Two records whose filter field differs only by letter case. -/
def dfSentinel : DataFrame :=
  ⟨["F"], [[("F", Value.str "abc")], [("F", Value.str "ABC")]]⟩

/-- A raw sheet having only an unmapped-free column, with every other
declared raw header absent. -/
def rawNoFinancial : DataFrame := ⟨["SNo"], [[("SNo", Value.str "1")]]⟩

/-- A raw sheet with a single mapped column and nothing else. -/
def rawSNoOnly : DataFrame := ⟨["SNo"], [[("SNo", Value.str "1")]]⟩

/-- A filtered frame whose Vetting column is empty. -/
def dfZeroVetting : DataFrame :=
  ⟨["Vetting_Amount_INR", "Released_Amount_INR", "Pending_Amount_INR"], []⟩

/-- A raw sheet with one record whose Division cell is empty (NaN). -/
def rawMissingDivision : DataFrame :=
  ⟨["Division-1", "Vetting Amount (in INR)", "Credite Amout"],
   [[("Division-1", Value.str "A"),
     ("Vetting Amount (in INR)", Value.str "100"),
     ("Credite Amout", Value.str "40")],
    [("Division-1", Value.missing),
     ("Vetting Amount (in INR)", Value.str "20"),
     ("Credite Amout", Value.str "0")]]⟩

/-- A one-group frame fed directly to the aggregations. -/
def dfOneDivision : DataFrame :=
  ⟨["Division", "Programme_Scheme"],
   [[("Division", Value.str "A"), ("Programme_Scheme", Value.str "S")]]⟩

/-- Witness for C3 at concrete inputs: a non-sentinel selection keeps
exactly the exact-case matches. -/
theorem all_sentinel_noop_witness :
    ("abc" : String) ≠ "All F"
    ∧ (applyStep dfSentinel ⟨"F", "All F", "abc"⟩).rows
      = [[("F", Value.str "abc")]] := by
  have h := all_sentinel_noop dfSentinel "F" "All F" "abc" "F" "All F" (by decide)
  exact ⟨by decide, h.2.2.trans (by decide)⟩

/-- Witness for C9 at concrete inputs. -/
theorem fatal_error_witness :
    (((schemaMap rawNoFinancial).cols.contains "Vetting_Amount_INR"
        && (schemaMap rawNoFinancial).cols.contains "Released_Amount_INR") = false)
    ∧ load_from_fetch (.error "network unreachable") = emptyDF
    ∧ proceeds (load_from_fetch (.error "network unreachable")) = false
    ∧ load_and_clean rawNoFinancial = emptyDF
    ∧ proceeds (load_and_clean rawNoFinancial) = false := by
  have h := fatal_error_all_or_nothing "network unreachable" rawNoFinancial (by decide)
  exact ⟨by decide, h.1, h.2.1, h.2.2.1, h.2.2.2⟩

/-- Witness for C10 at a concrete frame with zero total Vetting. -/
theorem rates_zero_guard_witness :
    total_vetting dfZeroVetting = 0
    ∧ release_rate dfZeroVetting = 0 ∧ pending_rate dfZeroVetting = 0 := by
  have h0 : total_vetting dfZeroVetting = 0 := rfl
  have h := rates_zero_guard dfZeroVetting h0
  exact ⟨h0, h.1, h.2⟩

-- ## Claim theorems: schema mapper (C6)

/-- C6 counterexample: "DSO" is a declared canonical field, yet a raw
sheet lacking the "DSO-1" header produces a record with no "DSO" key at
all (an absent key, not a missing value). -/
theorem schema_absent_key_counterexample :
    "DSO" ∈ requiredCols
    ∧ (schemaMap rawSNoOnly).rows = [[("SNo", Value.str "1")]]
    ∧ getCell [("SNo", Value.str "1")] "DSO" = none := by decide

/-- C6 (amended): the Schema Mapper is total and keeps rows rectangular
over its output columns, but those columns are exactly the declared
canonical fields whose mapped raw header is present — a canonical field
with an absent raw header is dropped entirely (absent key), not filled
with a missing value; extra raw columns are likewise dropped. -/
theorem schemaMap_total_amended (raw : DataFrame) (hr : Rect raw) :
    (schemaMap raw).cols
      = requiredCols.filter
          (fun c => (raw.cols.map (renameKey CLEAN_COLUMN_NAMES)).contains c)
    ∧ Rect (schemaMap raw)
    ∧ ∀ c ∈ (schemaMap raw).cols, c ∈ requiredCols := by
  refine ⟨cols_schemaMap raw, rect_schemaMap hr, ?_⟩
  intro c hc
  rw [cols_schemaMap] at hc
  exact (List.mem_filter.mp hc).1

/-- Witness for the amended C6 at a concrete raw sheet. -/
theorem schemaMap_total_amended_witness :
    Rect rawSNoOnly
    ∧ ((schemaMap rawSNoOnly).cols
        = requiredCols.filter
            (fun c => (rawSNoOnly.cols.map (renameKey CLEAN_COLUMN_NAMES)).contains c)
      ∧ Rect (schemaMap rawSNoOnly)
      ∧ ∀ c ∈ (schemaMap rawSNoOnly).cols, c ∈ requiredCols) :=
  ⟨by decide, schemaMap_total_amended rawSNoOnly (by decide)⟩

-- ## Claim theorems: aggregator partitioning (C7)

theorem map_fst_div_summary (df : DataFrame) :
    (div_summary df).map Prod.fst = groupKeys df "Division" := by
  unfold div_summary
  rw [List.map_map]
  simp [Function.comp_def]

theorem map_fst_scheme_summary (df : DataFrame) :
    (scheme_summary df).map Prod.fst = groupKeys df "Programme_Scheme" := by
  unfold scheme_summary
  rw [List.map_map]
  simp [Function.comp_def]

theorem not_isMissing_iff {v : Value} : v.isMissing = false ↔ v ≠ Value.missing := by
  cases v <;> simp [Value.isMissing]

theorem mem_groupKeys {df : DataFrame} {c : String} {v : Value} :
    v ∈ groupKeys df c ↔ v ∈ df.colValues c ∧ v ≠ Value.missing := by
  unfold groupKeys
  rw [mem_sortVals, List.mem_dedup, List.mem_filter]
  simp [not_isMissing_iff]

/-- C7 counterexample: a record whose Division cell is empty survives the
load pipeline as a missing group key and is silently absent from the
Division aggregation — no "missing" group is formed for it. -/
theorem groupby_drops_missing_counterexample :
    (load_and_clean rawMissingDivision).rows.length = 2
    ∧ (load_and_clean rawMissingDivision).colValues "Division"
      = [Value.str "A", Value.missing]
    ∧ (div_summary (load_and_clean rawMissingDivision)).map Prod.fst = [Value.str "A"]
    ∧ Value.missing ∉ (div_summary (load_and_clean rawMissingDivision)).map Prod.fst := by
  decide

/-- C7 (amended): both aggregations partition records by the non-missing
values of their group field only; a record whose group key is missing is
silently excluded (pandas groupby default `dropna=True`) rather than
given its own "missing" group. -/
theorem aggregate_partition_amended (df : DataFrame) :
    (∀ k ∈ (div_summary df).map Prod.fst, k ≠ Value.missing)
    ∧ (∀ v ∈ df.colValues "Division", v ≠ Value.missing
        → v ∈ (div_summary df).map Prod.fst)
    ∧ (∀ k ∈ (scheme_summary df).map Prod.fst, k ≠ Value.missing)
    ∧ (∀ v ∈ df.colValues "Programme_Scheme", v ≠ Value.missing
        → v ∈ (scheme_summary df).map Prod.fst) := by
  refine ⟨?_, ?_, ?_, ?_⟩
  · intro k hk
    rw [map_fst_div_summary] at hk
    exact (mem_groupKeys.mp hk).2
  · intro v hv hne
    rw [map_fst_div_summary]
    exact mem_groupKeys.mpr ⟨hv, hne⟩
  · intro k hk
    rw [map_fst_scheme_summary] at hk
    exact (mem_groupKeys.mp hk).2
  · intro v hv hne
    rw [map_fst_scheme_summary]
    exact mem_groupKeys.mpr ⟨hv, hne⟩

/-- Witness for the amended C7 at a concrete frame. -/
theorem aggregate_partition_amended_witness :
    Value.str "A" ∈ (div_summary dfOneDivision).map Prod.fst
    ∧ Value.str "S" ∈ (scheme_summary dfOneDivision).map Prod.fst := by
  have h := aggregate_partition_amended dfOneDivision
  exact ⟨h.2.1 (Value.str "A") (by decide) (by decide),
         h.2.2.2 (Value.str "S") (by decide) (by decide)⟩

-- ## Claim theorems: derivation round-trip (C5)

theorem headI_mem {α : Type} [Inhabited α] {l : List α} (h : l ≠ []) :
    l.headI ∈ l := by
  cases l with
  | nil => exact absurd rfl h
  | cons a t => simp

theorem mem_requiredCols_of_mem_schemaCols {raw : DataFrame} {c : String}
    (h : c ∈ (schemaMap raw).cols) : c ∈ requiredCols := by
  rw [cols_schemaMap] at h
  exact (List.mem_filter.mp h).1

/-- C5: for every rectangular raw sheet, every record of the loaded frame
stores a numeric Vetting value a, a numeric Released value b, and a
Pending value that is exactly a - b in exact rational arithmetic — no
rounding drift and no clamping of negative differences. -/
theorem pending_exact (raw : DataFrame) (hrect : Rect raw) (r : Row)
    (hr : r ∈ (load_and_clean raw).rows) :
    ∃ a b : ℚ,
      getCell r "Vetting_Amount_INR" = some (Value.num a)
      ∧ getCell r "Released_Amount_INR" = some (Value.num b)
      ∧ getCell r "Pending_Amount_INR" = some (Value.num (a - b)) := by
  simp only [load_and_clean] at hr
  split at hr
  case isFalse => simp [emptyDF] at hr
  case isTrue hcond =>
  simp only [cols_castFold] at hcond
  rw [Bool.and_eq_true] at hcond
  obtain ⟨hV, hR⟩ := hcond
  rw [rows_castFold, List.mem_map] at hr
  obtain ⟨r₂, hr₂, rfl⟩ := hr
  simp only [DataFrame.addCol, List.mem_map] at hr₂
  obtain ⟨r₁, hr₁, rfl⟩ := hr₂
  rw [rows_castFold, List.mem_map] at hr₁
  obtain ⟨r₀, hr₀, rfl⟩ := hr₁
  have hsel : r₀.map Prod.fst = (schemaMap raw).cols := rect_schemaMap hrect r₀ hr₀
  have hVmem : "Vetting_Amount_INR" ∈ (schemaMap raw).cols := by simpa using hV
  have hRmem : "Released_Amount_INR" ∈ (schemaMap raw).cols := by simpa using hR
  obtain ⟨v₀, hv₀⟩ : ∃ v, getCell r₀ "Vetting_Amount_INR" = some v :=
    Option.isSome_iff_exists.mp (getCell_isSome.mpr (hsel ▸ hVmem))
  obtain ⟨w₀, hw₀⟩ : ∃ w, getCell r₀ "Released_Amount_INR" = some w :=
    Option.isSome_iff_exists.mp (getCell_isSome.mpr (hsel ▸ hRmem))
  have hfold : castRowFold FINANCIAL_COLS cleanCell (schemaMap raw).cols r₀
      = mapColRow "Released_Amount_INR" cleanCell
          (mapColRow "Vetting_Amount_INR" cleanCell r₀) := by
    unfold castRowFold FINANCIAL_COLS
    simp only [List.foldl_cons, List.foldl_nil, hV, hR, if_true]
  have hr₁V : getCell (castRowFold FINANCIAL_COLS cleanCell (schemaMap raw).cols r₀)
      "Vetting_Amount_INR" = some (cleanCell v₀) := by
    rw [hfold, getCell_mapColRow_ne _ _ (by decide), getCell_mapColRow_self, hv₀]
    rfl
  have hr₁R : getCell (castRowFold FINANCIAL_COLS cleanCell (schemaMap raw).cols r₀)
      "Released_Amount_INR" = some (cleanCell w₀) := by
    rw [hfold, getCell_mapColRow_self, getCell_mapColRow_ne _ _ (by decide), hw₀]
    rfl
  have hkeys₁ : (castRowFold FINANCIAL_COLS cleanCell (schemaMap raw).cols r₀).map
      Prod.fst = (schemaMap raw).cols := by
    rw [keys_castRowFold]
    exact hsel
  have hPnotin : "Pending_Amount_INR"
      ∉ (castRowFold FINANCIAL_COLS cleanCell (schemaMap raw).cols r₀).map Prod.fst := by
    rw [hkeys₁]
    intro hm
    have := mem_requiredCols_of_mem_schemaCols hm
    revert this
    decide
  refine ⟨(parseDecimal (stripNonNumeric v₀.toStr)).getD 0,
          (parseDecimal (stripNonNumeric w₀.toStr)).getD 0, ?_, ?_, ?_⟩
  · rw [getCell_castRowFold_ne' (by decide), getCell_append_ne (by decide), hr₁V]
    rfl
  · rw [getCell_castRowFold_ne' (by decide), getCell_append_ne (by decide), hr₁R]
    rfl
  · rw [getCell_castRowFold_ne' (by decide), getCell_append_self hPnotin]
    unfold pendingOf
    rw [hr₁V, hr₁R]
    rfl

/-- A raw sheet with an over-released record (Released exceeds Vetting). -/
def rawOverReleased : DataFrame :=
  ⟨["Vetting Amount (in INR)", "Credite Amout"],
   [[("Vetting Amount (in INR)", Value.str "0"),
     ("Credite Amout", Value.str "40")]]⟩

/-- Witness for C5 at a concrete over-released record. -/
theorem pending_exact_witness :
    Rect rawOverReleased
    ∧ (load_and_clean rawOverReleased).rows ≠ []
    ∧ ∃ a b : ℚ,
        getCell (load_and_clean rawOverReleased).rows.headI "Vetting_Amount_INR"
          = some (Value.num a)
        ∧ getCell (load_and_clean rawOverReleased).rows.headI "Released_Amount_INR"
          = some (Value.num b)
        ∧ getCell (load_and_clean rawOverReleased).rows.headI "Pending_Amount_INR"
          = some (Value.num (a - b)) := by
  have hne : (load_and_clean rawOverReleased).rows ≠ [] := by decide
  exact ⟨by decide, hne,
    pending_exact rawOverReleased (by decide) _ (headI_mem hne)⟩

-- ## Claim theorems: distinct counts (C8)

theorem colValues_schemaMap (raw : DataFrame) {h c : String}
    (hrect : Rect raw)
    (hrn : renameKey CLEAN_COLUMN_NAMES h = c)
    (hmem : h ∈ raw.cols)
    (hc : c ∈ (schemaMap raw).cols)
    (hnd : (raw.cols.map (renameKey CLEAN_COLUMN_NAMES)).Nodup) :
    (schemaMap raw).colValues c = raw.colValues h := by
  unfold DataFrame.colValues
  rw [rows_schemaMap, List.filterMap_map]
  apply List.filterMap_congr
  intro r hrr
  have hkeys : r.map Prod.fst = raw.cols := hrect r hrr
  show getCell (rowSelect (schemaMap raw).cols (renameRow r)) c = getCell r h
  rw [getCell_rowSelect, if_pos hc]
  refine getCell_renameRow hrn ?_ ?_
  · rw [hkeys]
    exact hmem
  · intro k hk hrk
    exact List.inj_on_of_nodup_map hnd (hkeys ▸ hk) hmem (hrk.trans hrn.symm)

theorem dedup_map_str (l : List String) :
    (l.map Value.str).dedup = l.dedup.map Value.str := by
  induction l with
  | nil => rfl
  | cons a t ih =>
    by_cases h : a ∈ t
    · rw [List.map_cons, List.dedup_cons_of_mem (List.mem_map_of_mem _ h),
        List.dedup_cons_of_mem h, ih]
    · have h' : Value.str a ∉ t.map Value.str := by
        intro hm
        rw [List.mem_map] at hm
        obtain ⟨x, hx, he⟩ := hm
        cases he
        exact h hx
      rw [List.map_cons, List.dedup_cons_of_not_mem h',
        List.dedup_cons_of_not_mem h, ih, List.map_cons]

/-- C8 (amended): the Sanction-File distinct count equals the number of
distinct strings obtained from the raw column after coercing every cell
to its string form, with a missing cell coerced to the string "nan" — so
a record with a missing Sanction File number contributes the sentinel
string "nan" to the count rather than contributing nothing. -/
theorem distinct_count_amended (raw : DataFrame)
    (hrect : Rect raw)
    (hnd : (raw.cols.map (renameKey CLEAN_COLUMN_NAMES)).Nodup)
    (hS : "Sanction File No.-1" ∈ raw.cols)
    (hV : "Vetting Amount (in INR)" ∈ raw.cols)
    (hR : "Credite Amout" ∈ raw.cols) :
    count_sanction_file (load_and_clean raw)
      = (((raw.colValues "Sanction File No.-1").map Value.toStr).dedup).length
    ∧ Value.toStr Value.missing = "nan" := by
  refine ⟨?_, rfl⟩
  have hSc : "Sanction_File_No" ∈ (schemaMap raw).cols := by
    rw [cols_schemaMap, List.mem_filter]
    refine ⟨by decide, ?_⟩
    have hmemR : "Sanction_File_No" ∈ raw.cols.map (renameKey CLEAN_COLUMN_NAMES) :=
      List.mem_map.mpr ⟨"Sanction File No.-1", hS, by decide⟩
    simpa using hmemR
  have hVc : "Vetting_Amount_INR" ∈ (schemaMap raw).cols := by
    rw [cols_schemaMap, List.mem_filter]
    refine ⟨by decide, ?_⟩
    have hmemR : "Vetting_Amount_INR" ∈ raw.cols.map (renameKey CLEAN_COLUMN_NAMES) :=
      List.mem_map.mpr ⟨"Vetting Amount (in INR)", hV, by decide⟩
    simpa using hmemR
  have hRc : "Released_Amount_INR" ∈ (schemaMap raw).cols := by
    rw [cols_schemaMap, List.mem_filter]
    refine ⟨by decide, ?_⟩
    have hmemR : "Released_Amount_INR" ∈ raw.cols.map (renameKey CLEAN_COLUMN_NAMES) :=
      List.mem_map.mpr ⟨"Credite Amout", hR, by decide⟩
    simpa using hmemR
  have hcond : ((castFold FINANCIAL_COLS cleanCell (schemaMap raw)).cols.contains
        "Vetting_Amount_INR"
      && (castFold FINANCIAL_COLS cleanCell (schemaMap raw)).cols.contains
        "Released_Amount_INR") = true := by
    rw [Bool.and_eq_true]
    constructor
    · rw [cols_castFold]
      simpa using hVc
    · rw [cols_castFold]
      simpa using hRc
  have hload : load_and_clean raw
      = castFold STR_CAST_COLS (fun v => Value.str v.toStr)
          ((castFold FINANCIAL_COLS cleanCell (schemaMap raw)).addCol
            "Pending_Amount_INR" pendingOf) := by
    simp only [load_and_clean, hcond, if_true]
  rw [hload]
  unfold count_sanction_file nuniqueCol
  have hSTR : STR_CAST_COLS = "Sanction_File_No" ::
      ["Budget_Head", "Diary_No", "DSO", "Project_Type", "Budget"] := rfl
  have h1 : (castFold STR_CAST_COLS (fun v => Value.str v.toStr)
        ((castFold FINANCIAL_COLS cleanCell (schemaMap raw)).addCol
          "Pending_Amount_INR" pendingOf)).colValues "Sanction_File_No"
      = (((castFold FINANCIAL_COLS cleanCell (schemaMap raw)).addCol
          "Pending_Amount_INR" pendingOf).colValues "Sanction_File_No").map
            (fun v => Value.str v.toStr) := by
    rw [hSTR]
    refine colValues_castFold_head _ _ _ _ ?_ (by decide)
    show (((castFold FINANCIAL_COLS cleanCell (schemaMap raw)).cols
        ++ ["Pending_Amount_INR"]).contains "Sanction_File_No") = true
    rw [cols_castFold]
    have : "Sanction_File_No" ∈ (schemaMap raw).cols ++ ["Pending_Amount_INR"] :=
      List.mem_append_left _ hSc
    simpa using this
  have h2 : ((castFold FINANCIAL_COLS cleanCell (schemaMap raw)).addCol
        "Pending_Amount_INR" pendingOf).colValues "Sanction_File_No"
      = (castFold FINANCIAL_COLS cleanCell (schemaMap raw)).colValues
          "Sanction_File_No" :=
    colValues_addCol_ne _ _ (by decide)
  have h3 : (castFold FINANCIAL_COLS cleanCell (schemaMap raw)).colValues
        "Sanction_File_No"
      = (schemaMap raw).colValues "Sanction_File_No" :=
    colValues_castFold_ne cleanCell FINANCIAL_COLS _ _ (by decide)
  have h4 : (schemaMap raw).colValues "Sanction_File_No"
      = raw.colValues "Sanction File No.-1" :=
    colValues_schemaMap raw hrect (by decide) hS hSc hnd
  rw [h1, h2, h3, h4]
  generalize raw.colValues "Sanction File No.-1" = l
  have hfil : (l.map (fun v => Value.str v.toStr)).filter (fun v => !v.isMissing)
      = l.map (fun v => Value.str v.toStr) := by
    apply List.filter_eq_self.mpr
    intro a ha
    rw [List.mem_map] at ha
    obtain ⟨v, _, rfl⟩ := ha
    rfl
  rw [hfil]
  have hmm2 : l.map (fun v => Value.str v.toStr)
      = (l.map Value.toStr).map Value.str := by
    rw [List.map_map]
    rfl
  rw [hmm2, dedup_map_str, List.length_map]

/-- A raw sheet whose only record has an empty Sanction File cell. -/
def rawMissingSanction : DataFrame :=
  ⟨["Sanction File No.-1", "Vetting Amount (in INR)", "Credite Amout"],
   [[("Sanction File No.-1", Value.missing),
     ("Vetting Amount (in INR)", Value.str "100"),
     ("Credite Amout", Value.str "40")]]⟩

/-- C8 counterexample: a record whose Sanction File number is missing is
counted — the string cast turns the missing value into the string "nan",
which `nunique` then counts as a distinct value, so the count is 1 where
the claim requires 0. -/
theorem distinct_count_missing_counterexample :
    rawMissingSanction.colValues "Sanction File No.-1" = [Value.missing]
    ∧ (load_and_clean rawMissingSanction).colValues "Sanction_File_No"
      = [Value.str "nan"]
    ∧ count_sanction_file (load_and_clean rawMissingSanction) = 1 := by
  decide

/-- Witness for the amended C8 at a concrete raw sheet with a missing
Sanction File cell. -/
theorem distinct_count_amended_witness :
    Rect rawMissingSanction
    ∧ (count_sanction_file (load_and_clean rawMissingSanction)
        = (((rawMissingSanction.colValues "Sanction File No.-1").map
            Value.toStr).dedup).length
      ∧ Value.toStr Value.missing = "nan")
    ∧ count_sanction_file (load_and_clean rawMissingSanction) = 1 := by
  refine ⟨by decide,
    distinct_count_amended rawMissingSanction (by decide) (by decide)
      (by decide) (by decide) (by decide), by decide⟩

end PFMS
